import Mathlib

/-!
Shallow embedding of the kjudge model generator
(`src/models/generate/main.go`) together with proofs about the key
inference engine, the clause builders, the naming transformer and the
rendering driver.

Go maps (`TomlTable`, `TomlTables`) are embedded as association lists
`List (String × String)`; the order of the list stands for the
(unspecified) iteration order of the Go map, and key sets are assumed
duplicate-free where a proof needs it, as Go maps guarantee. String
primitives of the Go standard library (strings.Split, strings.Title,
strings.HasSuffix, slicing, sort.Sort on a StringSlice) are embedded as
structurally recursive functions on the character list of a string, so
every definition evaluates inside the kernel; for the ASCII identifiers
a schema contains, character order and Go byte order coincide.
-/

namespace Kjudge

/-- TomlTable is a map from column name to relevant type. -/
abbrev TomlTable := List (String × String)

/-- TomlTables is a map from table names to relevant tables. -/
abbrev TomlTables := List (String × TomlTable)

/-! ### Embedded Go string primitives -/

/-- splitUnderscoreAux models strings.Split(s, "_"): it walks the
characters, cutting a new part at every underscore, with acc holding the
characters of the current part in reverse. -/
def splitUnderscoreAux : List Char → List Char → List String
  | [], acc => [String.mk acc.reverse]
  | c :: cs, acc =>
    if c = '_' then String.mk acc.reverse :: splitUnderscoreAux cs []
    else splitUnderscoreAux cs (c :: acc)

/-- goSplitUnderscore is strings.Split(s, "_"); on the empty string it
returns the one-element list with the empty string, as Go does. -/
def goSplitUnderscore (s : String) : List String :=
  splitUnderscoreAux s.data []

/-- goHasSuffix models strings.HasSuffix. -/
def goHasSuffix (s suffix : String) : Bool :=
  List.isSuffixOf suffix.data s.data

/-- takeStr is the Go slice s[:n] for an in-range n (character-based;
identical to the byte-based Go slice on ASCII identifiers). -/
def takeStr (s : String) (n : Nat) : String :=
  String.mk (s.data.take n)

/-- dropRightStr removes the last n characters, the Go slice
s[:len(s)-n]. -/
def dropRightStr (s : String) (n : Nat) : String :=
  String.mk (s.data.take (s.data.length - n))

/-- listCharLe is lexicographic order on character lists, the order
sort.Sort(sort.StringSlice) arranges Go strings in. -/
def listCharLe : List Char → List Char → Bool
  | [], _ => true
  | _ :: _, [] => false
  | x :: xs, y :: ys =>
    if x.toNat < y.toNat then true
    else if y.toNat < x.toNat then false
    else listCharLe xs ys

/-- strLe is the lexicographic string order used when sorting keys. -/
def strLe (a b : String) : Prop :=
  listCharLe a.data b.data = true

instance : DecidableRel strLe := fun a b =>
  inferInstanceAs (Decidable (listCharLe a.data b.data = true))

/-! ### The naming transformer -/

/-- goTitle models Go strings.Title on ASCII input: every letter that
starts a word (that is, is not preceded by a letter) is upper-cased. -/
def goTitleAux : List Char → Bool → List Char
  | [], _ => []
  | c :: cs, prevLetter =>
    (if c.isAlpha && !prevLetter then c.toUpper else c) :: goTitleAux cs c.isAlpha

/-- goTitle upper-cases the first letter of each word, as strings.Title does. -/
def goTitle (s : String) : String :=
  String.mk (goTitleAux s.data false)

/-- snakeLoop is the body of the SnakeToGocase loop over the parts of the
identifier, carrying the running index i. The branch structure follows the
Go source: when i = 0 and the identifier is not exported the part is kept
as-is, otherwise the literal part "id" becomes "ID" and any other part is
title-cased. -/
def snakeLoop (exported : Bool) : Nat → List String → String
  | _, [] => ""
  | i, p :: ps =>
    (if i == 0 && !exported then p
     else if p == "id" then "ID"
     else goTitle p) ++ snakeLoop exported (i + 1) ps

/-- SnakeToGocase translates snake case to go-case, splitting on
underscores; if exported is true the first character is upper-cased. -/
def SnakeToGocase (s : String) (exported : Bool) : String :=
  snakeLoop exported 0 (goSplitUnderscore s)

/-- goSlice models the Go slice expression s[:hi], which panics (here:
returns none) unless 0 ≤ hi ≤ len(s). -/
def goSlice (s : String) (hi : Int) : Option String :=
  if 0 ≤ hi ∧ hi ≤ (s.length : Int) then some (takeStr s hi.toNat) else none

/-- StructName gets the struct name from the table name by removing the
trailing character (the Go code slices tableName[:len(tableName)-1], which
is out of range for the empty string) and converting to go-case. -/
def StructName (tableName : String) : Option String :=
  (goSlice tableName ((tableName.length : Int) - 1)).map
    (fun s => SnakeToGocase s true)

/-- structStr is the total counterpart of StructName used by the render
model; on every nonempty table name (the only names a loaded schema can
contain, since the Go code would panic otherwise) it agrees with StructName. -/
def structStr (tableName : String) : String :=
  SnakeToGocase (takeStr tableName (tableName.length - 1)) true

/-- ForeignKey translates an fk id into a struct name by stripping the
trailing three characters, which at every call site are the suffix "_id". -/
def ForeignKey (keyID : String) : String :=
  SnakeToGocase (dropRightStr keyID 3) true

/-! ### The clause builders -/

/-- sortKeys collects the keys of the map and sorts them ascending, as the
Go code does with sort.Sort over a StringSlice. -/
def sortKeys (k : TomlTable) : List String :=
  List.insertionSort strLe (k.map Prod.fst)

/-- condLoop is the body of the JoinCondition loop: a first flag suppresses
the separator before the leading element, and each key k contributes the
text k = ?. -/
def condLoop (sep : String) : List String → Bool → String
  | [], _ => ""
  | k :: ks, first =>
    (if !first then sep else "") ++ (k ++ " = ?") ++ condLoop sep ks false

/-- JoinCondition joins the sorted keys into a condition clause. -/
def JoinCondition (keys : TomlTable) (sep : String) : String :=
  condLoop sep (sortKeys keys) true

/-- JoinArguments joins the sorted key list into an argument list: bare
parameter names for an empty struct name, raw column names for the
sentinel "-", and struct field accesses otherwise. -/
def JoinArguments (keys : TomlTable) (structName : String) : String :=
  String.intercalate ", "
    ((sortKeys keys).map (fun key =>
      if structName == "" then SnakeToGocase key false
      else if structName == "-" then key
      else structName ++ "." ++ SnakeToGocase key true))

/-- Marks generates as many question marks as there are keys. -/
def Marks (keys : TomlTable) : String :=
  String.intercalate ", " (keys.map (fun _ => "?"))

/-! ### The key inference engine -/

/-- Table is a table representation, with the derived primary and foreign
key sets and the chosen write strategy. -/
structure Table where
  Name : String
  Upsert : Bool
  Fields : TomlTable
  PrimaryKeys : TomlTable
  ForeignKeys : TomlTable
deriving DecidableEq

/-- FieldsWithoutID returns the fields excluding the id row. -/
def Table.FieldsWithoutID (t : Table) : TomlTable :=
  t.Fields.filter (fun p => p.1 != "id")

/-- fkCandidate holds when a column name ends in the suffix "_id" and the
table named by stripping the suffix and appending a pluralizing s exists in
the schema; such a column is recorded as a foreign key. -/
def fkCandidate (tables : TomlTables) (field : String) : Bool :=
  goHasSuffix field "_id" &&
    (List.lookup (dropRightStr field 3 ++ "s") tables).isSome

/-- TableFromToml parses out a Table from its TOML: columns shaped like
foreign keys (suffix "_id", referenced table present) populate both key
sets; a column named exactly id then overrides the primary keys with the
singleton id and makes the strategy upsert exactly when its type is not
int. -/
def TableFromToml (tables : TomlTables) (name : String) (t : TomlTable) : Table :=
  let fks : TomlTable := t.filter (fun p => fkCandidate tables p.1)
  match List.lookup "id" t with
  | some v =>
      { Name := name, Upsert := !(v == "int"), Fields := t,
        PrimaryKeys := [("id", v)], ForeignKeys := fks }
  | none =>
      { Name := name, Upsert := true, Fields := t,
        PrimaryKeys := fks, ForeignKeys := fks }

/-! ### The template renderer

One definition per emitted fragment of `FileTemplate`, `TableTemplate`,
`UpsertTemplate` and `UpdateOrInsertTemplate`. Because text/template
visits map keys in sorted order when ranging, a range action over a map
is embedded as `rangeSorted`. -/

/-- rangeSorted models a text/template range action over a Go map: the
keys are visited in sorted order, each paired with its value. -/
def rangeSorted (m : TomlTable) : List (String × String) :=
  (sortKeys m).map (fun k => (k, (List.lookup k m).getD ""))

/-- fieldLine is one struct field line of the generated record type. -/
def fieldLine (f ty : String) : String :=
  "\n    " ++ SnakeToGocase f true ++ " " ++ ty ++ " `db:\"" ++ f ++ "\"`"

/-- structDecl is the generated record type declaration. -/
def structDecl (t : Table) : String :=
  "type " ++ structStr t.Name ++ " struct \x7b" ++
    String.join ((rangeSorted t.Fields).map (fun p => fieldLine p.1 p.2)) ++
  "\n\x7d\n"

/-- pkParams renders the extra parameters of the primary key getter, one
per primary key column in sorted order. -/
def pkParams (pks : TomlTable) : String :=
  String.join ((rangeSorted pks).map
    (fun p => ", " ++ SnakeToGocase p.1 false ++ " " ++ p.2))

/-- selectByPKStmt is the SQL text of the primary key getter. -/
def selectByPKStmt (t : Table) : String :=
  "SELECT * FROM " ++ t.Name ++ " WHERE " ++ JoinCondition t.PrimaryKeys " AND "

/-- getByPKFunc is the generated primary key getter. -/
def getByPKFunc (t : Table) : String :=
  "// Get" ++ structStr t.Name ++ " gets a " ++ structStr t.Name ++
    " from the Database.\n" ++
  "func Get" ++ structStr t.Name ++ "(db db.DBContext" ++
    pkParams t.PrimaryKeys ++ ") (*" ++ structStr t.Name ++ ", error) \x7b\n" ++
  "    var result " ++ structStr t.Name ++ "\n" ++
  "    if err := db.Get(&result, \"" ++ selectByPKStmt t ++ "\", " ++
    JoinArguments t.PrimaryKeys "" ++ "); err != nil \x7b\n" ++
  "        return nil, errors.WithStack(err)\n    \x7d\n    return &result, nil\n\x7d\n"

/-- fkAccessorName is the name the template gives a foreign key getter:
print of Get, the relation struct name, the table struct name and a
pluralizing s. -/
def fkAccessorName (tableName fk : String) : String :=
  "Get" ++ ForeignKey fk ++ structStr tableName ++ "s"

/-- selectByFKStmt is the SQL text of a foreign key getter. -/
def selectByFKStmt (tableName fk : String) : String :=
  "SELECT * FROM " ++ tableName ++ " WHERE " ++ fk ++ " = ?"

/-- getByFKFunc is the generated getter for one foreign key column. -/
def getByFKFunc (t : Table) (fk fktype : String) : String :=
  "// " ++ fkAccessorName t.Name fk ++ " gets a list of " ++ structStr t.Name ++
    " belonging to a " ++ ForeignKey fk ++ ".\n" ++
  "func " ++ fkAccessorName t.Name fk ++ "(db db.DBContext, " ++
    SnakeToGocase fk false ++ " " ++ fktype ++ ") ([]*" ++ structStr t.Name ++
    ", error) \x7b\n" ++
  "    var result []*" ++ structStr t.Name ++ "\n" ++
  "    if err := db.Select(&result, \"" ++ selectByFKStmt t.Name fk ++ "\", " ++
    SnakeToGocase fk false ++ "); err != nil \x7b\n" ++
  "        return nil, errors.WithStack(err)\n    \x7d\n    return result, nil\n\x7d\n"

/-- allFKFuncs renders one foreign key getter per foreign key column, in
sorted column order. -/
def allFKFuncs (t : Table) : String :=
  String.join ((rangeSorted t.ForeignKeys).map (fun p => getByFKFunc t p.1 p.2))

/-- upsertSetClause is the text after DO UPDATE SET in the upsert
statement; the template passes the FULL field set to the condition
builder. -/
def upsertSetClause (t : Table) : String :=
  JoinCondition t.Fields ", "

/-- upsertStmt is the single combined insert-or-update SQL statement of
the upsert template. -/
def upsertStmt (t : Table) : String :=
  "INSERT INTO " ++ t.Name ++ "(" ++ JoinArguments t.Fields "-" ++
    ") VALUES (" ++ Marks t.Fields ++ ") ON CONFLICT (" ++
    JoinArguments t.PrimaryKeys "-" ++ ") DO UPDATE SET " ++ upsertSetClause t

/-- upsertArgs is the argument list passed with the upsert statement: the
full field set twice. -/
def upsertArgs (t : Table) : String :=
  JoinArguments t.Fields "r" ++ ", " ++ JoinArguments t.Fields "r"

/-- upsertFunc is the generated Write method of the upsert template. -/
def upsertFunc (t : Table) : String :=
  "// Write writes the change to the Database. This happens as an UPSERT statement.\n" ++
  "func (r *" ++ structStr t.Name ++ ") Write(db db.DBContext) error \x7b\n" ++
  "    if err := r.Verify(); err != nil \x7b\n        return err\n    \x7d\n" ++
  "    _, err := db.Exec(\"" ++ upsertStmt t ++ "\",\n                        " ++
    upsertArgs t ++ ")\n" ++
  "    return errors.WithStack(err)\n\x7d\n"

/-- insertStmt is the INSERT statement of the insert-or-update template,
over all fields except id. -/
def insertStmt (t : Table) : String :=
  "INSERT INTO " ++ t.Name ++ "(" ++ JoinArguments t.FieldsWithoutID "-" ++
    ") VALUES (" ++ Marks t.FieldsWithoutID ++ ")"

/-- updateStmt is the UPDATE statement of the insert-or-update template. -/
def updateStmt (t : Table) : String :=
  "UPDATE " ++ t.Name ++ " SET " ++ JoinCondition t.Fields ", " ++
    " WHERE " ++ JoinCondition t.PrimaryKeys " AND "

/-- insertBranch is the autoincrement insert branch of the
insert-or-update template, emitted when the id field has type int. -/
def insertBranch (t : Table) : String :=
  "    if r.ID == 0 \x7b\n" ++
  "        res, err := db.Exec(\"" ++ insertStmt t ++ "\", " ++
    JoinArguments t.FieldsWithoutID "r" ++ ")\n" ++
  "        if err != nil \x7b\n            return errors.WithStack(err)\n        \x7d\n" ++
  "        id, err := res.LastInsertId()\n" ++
  "        if err != nil \x7b\n            return errors.WithStack(err)\n        \x7d\n" ++
  "        r.ID = int(id)\n        return nil\n    \x7d\n"

/-- updateOrInsertFunc is the generated Write method of the
insert-or-update template; the template emits the insert branch when
index .Fields id equals int (index yields the empty string when id is
absent). -/
def updateOrInsertFunc (t : Table) : String :=
  "// Write writes the change to the Database.\n" ++
  "// If the ID of the " ++ structStr t.Name ++
    " is 0, then an INSERT is performed. Else, an UPDATE is triggered.\n" ++
  "func (r *" ++ structStr t.Name ++ ") Write(db db.DBContext) error \x7b\n" ++
  "    if err := r.Verify(); err != nil \x7b\n        return err\n    \x7d\n" ++
  (if (List.lookup "id" t.Fields).getD "" == "int" then insertBranch t else "") ++
  "    _, err := db.Exec(\"" ++ updateStmt t ++ "\",\n                      " ++
    JoinArguments t.Fields "r" ++ ", " ++ JoinArguments t.PrimaryKeys "r" ++ ")\n" ++
  "    return errors.WithStack(err)\n\x7d\n"

/-- writeFunc selects between the two write templates on the Upsert flag. -/
def writeFunc (t : Table) : String :=
  if t.Upsert then upsertFunc t else updateOrInsertFunc t

/-- deleteStmt is the SQL text of the generated Delete method. -/
def deleteStmt (t : Table) : String :=
  "DELETE FROM " ++ t.Name ++ " WHERE " ++ JoinCondition t.PrimaryKeys " AND "

/-- deleteFunc is the generated Delete method. -/
def deleteFunc (t : Table) : String :=
  "// Delete deletes the " ++ structStr t.Name ++ " from the Database.\n" ++
  "func (r *" ++ structStr t.Name ++ ") Delete(db db.DBContext) error \x7b\n" ++
  "    _, err := db.Exec(\"" ++ deleteStmt t ++ "\", " ++
    JoinArguments t.PrimaryKeys "r" ++ ")\n" ++
  "    return errors.WithStack(err)\n\x7d\n"

/-- renderTable is the body produced by TableTemplate for one table. -/
def renderTable (t : Table) : String :=
  structDecl t ++ "\n" ++ getByPKFunc t ++ "\n" ++ allFKFuncs t ++ "\n" ++
    writeFunc t ++ "\n" ++ deleteFunc t

/-- fileHeader is the fixed text FileTemplate places before the table
body. -/
def fileHeader : String :=
  "// Generated by \"git.nkagami.me/natsukagami/kjudge/models/generate\". DO NOT EDIT.\n\n" ++
  "package models\n\nimport (\n    \"database/sql\"\n    \"github.com/pkg/errors\"\n    \"git.nkagami.me/natsukagami/kjudge/db\"\n)\n\n"

/-- renderFile is the whole generated file for one table. -/
def renderFile (t : Table) : String :=
  fileHeader ++ renderTable t

/-! ### The driver -/

/-- genFilename derives the output file name from the table name. -/
def genFilename (name : String) : String :=
  "models/" ++ name ++ "_generated.go"

/-- mainRun models the loop of main when no render error occurs: every
table of the schema is derived with TableFromToml and rendered to its
file, with no check of any kind on the derived key sets. -/
def mainRun (tables : TomlTables) : List (String × String) :=
  tables.map (fun p => (genFilename p.1, renderFile (TableFromToml tables p.1 p.2)))

/-- mainLoop models the loop of main together with its error handling:
renderFails says which tables the template execution fails on, and on the
first failing table main calls log.Fatal, which prints the error and
exits the process with status 1 immediately (second component true), so
no later table is processed. The file list holds the files fully
generated before the failure. -/
def mainLoop (tables : TomlTables) (renderFails : String → Bool) :
    List String × Bool :=
  match tables with
  | [] => ([], false)
  | (name, _) :: rest =>
    if renderFails name then ([], true)
    else
      let r := mainLoop rest renderFails
      (genFilename name :: r.1, r.2)

/-! ### Order and permutation infrastructure -/

theorem listCharLe_total : ∀ a b : List Char, listCharLe a b = true ∨ listCharLe b a = true := by
  intro a
  induction a with
  | nil => intro b; left; rfl
  | cons x xs ih =>
    intro b
    cases b with
    | nil => right; rfl
    | cons y ys =>
      simp only [listCharLe]
      rcases Nat.lt_trichotomy x.toNat y.toNat with h | h | h
      · left; simp [h]
      · have h1 : ¬ x.toNat < y.toNat := by omega
        have h2 : ¬ y.toNat < x.toNat := by omega
        simp only [if_neg h1, if_neg h2]
        exact ih ys
      · right; simp [h]

theorem listCharLe_trans :
    ∀ a b c : List Char, listCharLe a b = true → listCharLe b c = true →
      listCharLe a c = true := by
  intro a
  induction a with
  | nil => intro b c _ _; cases c <;> rfl
  | cons x xs ih =>
    intro b c hab hbc
    cases b with
    | nil => simp [listCharLe] at hab
    | cons y ys =>
      cases c with
      | nil => simp [listCharLe] at hbc
      | cons z zs =>
        simp only [listCharLe] at hab hbc ⊢
        by_cases hxy : x.toNat < y.toNat <;> by_cases hyz : y.toNat < z.toNat
        · simp [show x.toNat < z.toNat by omega]
        · by_cases hzy : z.toNat < y.toNat
          · simp [hyz, hzy] at hbc
          · simp [show x.toNat < z.toNat by omega]
        · by_cases hyx : y.toNat < x.toNat
          · simp [hxy, hyx] at hab
          · simp [show x.toNat < z.toNat by omega]
        · by_cases hyx : y.toNat < x.toNat
          · simp [hxy, hyx] at hab
          · by_cases hzy : z.toNat < y.toNat
            · simp [hyz, hzy] at hbc
            · have h1 : ¬ x.toNat < z.toNat := by omega
              have h2 : ¬ z.toNat < x.toNat := by omega
              simp only [if_neg hxy, if_neg hyx] at hab
              simp only [if_neg hyz, if_neg hzy] at hbc
              simp only [if_neg h1, if_neg h2]
              exact ih ys zs hab hbc

theorem listCharLe_antisymm :
    ∀ a b : List Char, listCharLe a b = true → listCharLe b a = true → a = b := by
  intro a
  induction a with
  | nil => intro b _ hba; cases b with
    | nil => rfl
    | cons y ys => simp [listCharLe] at hba
  | cons x xs ih =>
    intro b hab hba
    cases b with
    | nil => simp [listCharLe] at hab
    | cons y ys =>
      simp only [listCharLe] at hab hba
      by_cases hxy : x.toNat < y.toNat
      · simp [show ¬ y.toNat < x.toNat by omega, hxy] at hba
      · by_cases hyx : y.toNat < x.toNat
        · simp [hxy, hyx] at hab
        · have hn : x.toNat = y.toNat := by omega
          have hx : x = y := Char.eq_of_val_eq (UInt32.ext hn)
          simp only [if_neg hxy, if_neg hyx] at hab
          simp only [if_neg hyx, if_neg hxy] at hba
          rw [hx, ih ys hab hba]

instance : IsTotal String strLe := ⟨fun a b => listCharLe_total a.data b.data⟩

instance : IsTrans String strLe :=
  ⟨fun a b c => listCharLe_trans a.data b.data c.data⟩

instance : IsAntisymm String strLe :=
  ⟨fun a b h1 h2 => by
    cases a; cases b
    exact congrArg String.mk (listCharLe_antisymm _ _ h1 h2)⟩

theorem sortKeys_sorted (k : TomlTable) : (sortKeys k).Sorted strLe :=
  List.sorted_insertionSort strLe _

theorem sortKeys_perm (k : TomlTable) : List.Perm (sortKeys k) (k.map Prod.fst) :=
  List.perm_insertionSort strLe _

theorem sortKeys_eq_of_perm {m m' : TomlTable} (h : List.Perm m m') :
    sortKeys m = sortKeys m' :=
  List.eq_of_perm_of_sorted
    ((sortKeys_perm m).trans ((h.map Prod.fst).trans (sortKeys_perm m').symm))
    (sortKeys_sorted m) (sortKeys_sorted m')

/-- nodupKeys states that the keys of an association list are pairwise
distinct, as the keys of a Go map always are. -/
def nodupKeys {α β : Type} (l : List (α × β)) : Prop :=
  (l.map Prod.fst).Nodup

instance {α β : Type} [DecidableEq α] (l : List (α × β)) :
    Decidable (nodupKeys l) :=
  inferInstanceAs (Decidable (l.map Prod.fst).Nodup)

theorem nodupKeys_cons {α β : Type} {p : α × β} {l : List (α × β)} (nd : nodupKeys (p :: l)) :
    (∀ q ∈ l, p.1 ≠ q.1) ∧ nodupKeys l := by
  unfold nodupKeys at nd
  rw [List.map_cons, List.nodup_cons] at nd
  refine ⟨fun q hq hpq => nd.1 ?_, nd.2⟩
  rw [hpq]
  exact List.mem_map_of_mem Prod.fst hq

theorem lookup_eq_of_perm {α β : Type} [BEq α] [LawfulBEq α]
    {l₁ l₂ : List (α × β)} (h : List.Perm l₁ l₂) (nd : nodupKeys l₁) (a : α) :
    List.lookup a l₁ = List.lookup a l₂ := by
  induction h with
  | nil => rfl
  | cons p h ih =>
    simp only [List.lookup]
    split
    · rfl
    · exact ih (nodupKeys_cons nd).2
  | swap x y l =>
    by_cases hy : a == y.1 <;> by_cases hx : a == x.1 <;>
      simp only [List.lookup, hy, hx]
    have e1 : y.1 = a := (eq_of_beq hy).symm
    have e2 : x.1 = a := (eq_of_beq hx).symm
    have hne := (nodupKeys_cons nd).1 x (List.mem_cons_self x l)
    exact absurd (e1.trans e2.symm) hne
  | trans h1 _ ih1 ih2 =>
    refine (ih1 nd).trans (ih2 ?_)
    unfold nodupKeys at nd ⊢
    exact ((h1.map Prod.fst).nodup_iff).mp nd

theorem nodupKeys_of_perm {α β : Type} {l₁ l₂ : List (α × β)}
    (h : List.Perm l₁ l₂) (nd : nodupKeys l₁) : nodupKeys l₂ :=
  ((h.map Prod.fst).nodup_iff).mp nd

theorem strExt {a b : String} (h : a.data = b.data) : a = b := by
  cases a; cases b; exact congrArg String.mk h

theorem join_cons (s : String) (ss : List String) :
    String.join (s :: ss) = s ++ String.join ss :=
  strExt (by simp [String.join_eq])

theorem condLoop_false_eq (sep : String) :
    ∀ l : List String,
      condLoop sep l false = String.join (l.map (fun k => sep ++ (k ++ " = ?")))
  | [] => rfl
  | k :: ks => by
    rw [condLoop, List.map_cons, join_cons, condLoop_false_eq sep ks]
    simp

/-- JoinCondition emits exactly one equality per column, in sorted key
order, separated by sep: the first-flag loop of the Go code equals the
joined form. -/
theorem JoinCondition_eq_join (keys : TomlTable) (sep : String) :
    JoinCondition keys sep =
      match sortKeys keys with
      | [] => ""
      | k :: ks => k ++ " = ?" ++ String.join (ks.map (fun k2 => sep ++ (k2 ++ " = ?"))) := by
  unfold JoinCondition
  cases h : sortKeys keys with
  | nil => rfl
  | cons k ks =>
    rw [condLoop, condLoop_false_eq sep ks]
    simp

/-- Marks yields exactly one placeholder per column. -/
theorem Marks_eq_replicate (keys : TomlTable) :
    Marks keys = String.intercalate ", " (List.replicate keys.length "?") := by
  unfold Marks
  congr 1
  induction keys with
  | nil => rfl
  | cons p l ih => simp [List.replicate, ih]

theorem JoinCondition_eq_of_perm {m m' : TomlTable} (h : List.Perm m m')
    (sep : String) : JoinCondition m sep = JoinCondition m' sep := by
  unfold JoinCondition
  rw [sortKeys_eq_of_perm h]

theorem JoinArguments_eq_of_perm {m m' : TomlTable} (h : List.Perm m m')
    (recv : String) : JoinArguments m recv = JoinArguments m' recv := by
  unfold JoinArguments
  rw [sortKeys_eq_of_perm h]

theorem Marks_eq_of_perm {m m' : TomlTable} (h : List.Perm m m') :
    Marks m = Marks m' := by
  rw [Marks_eq_replicate, Marks_eq_replicate, h.length_eq]

theorem rangeSorted_eq_of_perm {m m' : TomlTable} (nd : nodupKeys m)
    (h : List.Perm m m') : rangeSorted m = rangeSorted m' := by
  unfold rangeSorted
  rw [sortKeys_eq_of_perm h]
  apply List.map_congr_left
  intro k _
  rw [lookup_eq_of_perm h nd k]

theorem nodupKeys_filter {α β : Type} {l : List (α × β)} (nd : nodupKeys l)
    (p : α × β → Bool) : nodupKeys (l.filter p) :=
  List.Nodup.sublist ((List.filter_sublist l).map Prod.fst) nd

theorem TableFromToml_Name (ts : TomlTables) (n : String) (t : TomlTable) :
    (TableFromToml ts n t).Name = n := by
  unfold TableFromToml
  split <;> rfl

theorem TableFromToml_Fields (ts : TomlTables) (n : String) (t : TomlTable) :
    (TableFromToml ts n t).Fields = t := by
  unfold TableFromToml
  split <;> rfl

theorem TableFromToml_ForeignKeys (ts : TomlTables) (n : String) (t : TomlTable) :
    (TableFromToml ts n t).ForeignKeys = t.filter (fun p => fkCandidate ts p.1) := by
  unfold TableFromToml
  split <;> rfl

theorem TableFromToml_some {t : TomlTable} {v : String}
    (ts : TomlTables) (n : String) (h : List.lookup "id" t = some v) :
    (TableFromToml ts n t).PrimaryKeys = [("id", v)] ∧
    (TableFromToml ts n t).Upsert = !(v == "int") := by
  unfold TableFromToml
  rw [h]
  exact ⟨rfl, rfl⟩

theorem TableFromToml_none {t : TomlTable}
    (ts : TomlTables) (n : String) (h : List.lookup "id" t = none) :
    (TableFromToml ts n t).PrimaryKeys = t.filter (fun p => fkCandidate ts p.1) ∧
    (TableFromToml ts n t).Upsert = true := by
  unfold TableFromToml
  rw [h]
  exact ⟨rfl, rfl⟩

/-- renderFile only consumes the field and key maps through the sorted
enumerations (rangeSorted, sortKeys) and through value lookups, so two
tables whose maps are permutations of each other with duplicate-free
keys render to the same text. -/
theorem renderFile_congr {a b : Table} (hname : a.Name = b.Name)
    (hupsert : a.Upsert = b.Upsert)
    (hf : List.Perm a.Fields b.Fields) (hfnd : nodupKeys a.Fields)
    (hpk : List.Perm a.PrimaryKeys b.PrimaryKeys) (hpknd : nodupKeys a.PrimaryKeys)
    (hfk : List.Perm a.ForeignKeys b.ForeignKeys) (hfknd : nodupKeys a.ForeignKeys) :
    renderFile a = renderFile b := by
  have eF : rangeSorted a.Fields = rangeSorted b.Fields :=
    rangeSorted_eq_of_perm hfnd hf
  have ePK : rangeSorted a.PrimaryKeys = rangeSorted b.PrimaryKeys :=
    rangeSorted_eq_of_perm hpknd hpk
  have eFK : rangeSorted a.ForeignKeys = rangeSorted b.ForeignKeys :=
    rangeSorted_eq_of_perm hfknd hfk
  have eCondF : ∀ sep, JoinCondition a.Fields sep = JoinCondition b.Fields sep :=
    JoinCondition_eq_of_perm hf
  have eCondPK : ∀ sep, JoinCondition a.PrimaryKeys sep = JoinCondition b.PrimaryKeys sep :=
    JoinCondition_eq_of_perm hpk
  have eArgsF : ∀ recv, JoinArguments a.Fields recv = JoinArguments b.Fields recv :=
    JoinArguments_eq_of_perm hf
  have eArgsPK : ∀ recv, JoinArguments a.PrimaryKeys recv = JoinArguments b.PrimaryKeys recv :=
    JoinArguments_eq_of_perm hpk
  have eMarksF : Marks a.Fields = Marks b.Fields := Marks_eq_of_perm hf
  have hwid : List.Perm a.FieldsWithoutID b.FieldsWithoutID := by
    unfold Table.FieldsWithoutID
    exact hf.filter _
  have eFKfun : ∀ fk ty, getByFKFunc a fk ty = getByFKFunc b fk ty := by
    intro fk ty
    unfold getByFKFunc fkAccessorName selectByFKStmt
    rw [hname]
  have eArgsW : ∀ recv, JoinArguments a.FieldsWithoutID recv = JoinArguments b.FieldsWithoutID recv :=
    JoinArguments_eq_of_perm hwid
  have eMarksW : Marks a.FieldsWithoutID = Marks b.FieldsWithoutID :=
    Marks_eq_of_perm hwid
  have eLook : List.lookup "id" a.Fields = List.lookup "id" b.Fields :=
    lookup_eq_of_perm hf hfnd "id"
  unfold renderFile renderTable structDecl getByPKFunc pkParams selectByPKStmt
    allFKFuncs writeFunc upsertFunc upsertStmt upsertSetClause upsertArgs
    updateOrInsertFunc insertBranch insertStmt updateStmt deleteFunc deleteStmt
  rw [hname, hupsert, eF, ePK, eFK, eLook]
  simp only [eCondF, eCondPK, eArgsF, eArgsPK, eMarksF, eArgsW, eMarksW, eFKfun]

theorem lookup_isSome_iff {α β : Type} [BEq α] [LawfulBEq α]
    (l : List (α × β)) (a : α) :
    (List.lookup a l).isSome = true ↔ a ∈ l.map Prod.fst := by
  induction l with
  | nil => simp [List.lookup]
  | cons p rest ih =>
    simp only [List.lookup, List.map_cons, List.mem_cons]
    by_cases h : a == p.1
    · simp [h, eq_of_beq h]
    · have h' : ¬ a = p.1 := fun e => h (by simp [e])
      simp [h, h', ih]

/-- fkCandidate only asks whether the candidate table name is present in
the schema, so it is insensitive to the iteration order the schema map
was enumerated in. -/
theorem fkCandidate_congr {ts ts' : TomlTables}
    (hkeys : List.Perm (ts.map Prod.fst) (ts'.map Prod.fst)) (f : String) :
    fkCandidate ts f = fkCandidate ts' f := by
  unfold fkCandidate
  congr 1
  rw [Bool.eq_iff_iff, lookup_isSome_iff, lookup_isSome_iff]
  exact hkeys.mem_iff

/-- TableFromToml produces, from key-permuted schemas and a permuted raw
table, tables that are componentwise permutations of each other with the
same name and write strategy, and hence render identically. -/
theorem renderFile_TableFromToml_eq {ts ts' : TomlTables} {t t' : TomlTable}
    (name : String) (hts : List.Perm (ts.map Prod.fst) (ts'.map Prod.fst))
    (ht : List.Perm t t') (ndt : nodupKeys t) :
    renderFile (TableFromToml ts name t) = renderFile (TableFromToml ts' name t') := by
  have hcand : ∀ p ∈ t', fkCandidate ts p.1 = fkCandidate ts' p.1 := by
    intro p _
    exact fkCandidate_congr hts p.1
  have hfks : List.Perm (t.filter (fun p => fkCandidate ts p.1))
      (t'.filter (fun p => fkCandidate ts' p.1)) := by
    have h1 : List.Perm (t.filter (fun p => fkCandidate ts p.1))
        (t'.filter (fun p => fkCandidate ts p.1)) := ht.filter _
    rw [List.filter_congr hcand] at h1
    exact h1
  have ndfks : nodupKeys (t.filter (fun p => fkCandidate ts p.1)) :=
    nodupKeys_filter ndt _
  have hlook : List.lookup "id" t = List.lookup "id" t' :=
    lookup_eq_of_perm ht ndt "id"
  apply renderFile_congr
  · rw [TableFromToml_Name, TableFromToml_Name]
  · unfold TableFromToml
    rw [hlook]
    split <;> rfl
  · rw [TableFromToml_Fields, TableFromToml_Fields]; exact ht
  · rw [TableFromToml_Fields]; exact ndt
  · cases h : List.lookup "id" t with
    | some v =>
      rw [(TableFromToml_some ts name h).1,
        (TableFromToml_some ts' name (hlook ▸ h)).1]
    | none =>
      rw [(TableFromToml_none ts name h).1,
        (TableFromToml_none ts' name (hlook ▸ h)).1]
      exact hfks
  · cases h : List.lookup "id" t with
    | some v =>
      rw [(TableFromToml_some ts name h).1]
      simp [nodupKeys]
    | none =>
      rw [(TableFromToml_none ts name h).1]
      exact ndfks
  · rw [TableFromToml_ForeignKeys, TableFromToml_ForeignKeys]; exact hfks
  · rw [TableFromToml_ForeignKeys]; exact ndfks

/-- sameTable relates two enumerations of one Go table map: equal names
and permuted column lists. -/
def sameTable (p q : String × TomlTable) : Prop :=
  p.1 = q.1 ∧ List.Perm p.2 q.2

/-- sameSchema relates two enumerations of one Go schema map: reorder
each inner table map, then permute the outer list. -/
def sameSchema (ts ts' : TomlTables) : Prop :=
  ∃ ts₀, List.Forall₂ sameTable ts ts₀ ∧ List.Perm ts₀ ts'

theorem forall₂_sameTable_keys {l l₀ : TomlTables}
    (h : List.Forall₂ sameTable l l₀) : l.map Prod.fst = l₀.map Prod.fst := by
  induction h with
  | nil => rfl
  | cons hR _ ih => simp [hR.1, ih]

theorem forall₂_sameTable_nodup {l l₀ : TomlTables}
    (h : List.Forall₂ sameTable l l₀) :
    (∀ p ∈ l, nodupKeys p.2) → ∀ q ∈ l₀, nodupKeys q.2 := by
  induction h with
  | nil => intro _ q hq; cases hq
  | cons hR _ ih =>
    intro nd q hq
    cases hq with
    | head => exact nodupKeys_of_perm hR.2 (nd _ (by simp))
    | tail _ hq' => exact ih (fun p hp => nd p (List.mem_cons_of_mem _ hp)) q hq'

theorem forall₂_map_eq {α β γ : Type} {R : α → β → Prop} {F : α → γ} {G : β → γ} :
    ∀ {l : List α} {l₀ : List β}, List.Forall₂ R l l₀ →
      (∀ a b, R a b → a ∈ l → F a = G b) → l.map F = l₀.map G := by
  intro l l₀ h
  induction h with
  | nil => intro _; rfl
  | @cons a b l1 l2 hR _ ih =>
    intro hcong
    have h1 : F a = G b := hcong a b hR (List.mem_cons_self _ _)
    have h2 := ih (fun x y hxy hx => hcong x y hxy (List.mem_cons_of_mem _ hx))
    simp only [List.map_cons, h1, h2]

/-- mainRun produces the same set of files (as a permutation of
filename-content pairs) on any two iteration orders of the same schema,
however the outer map and the inner table maps are enumerated. -/
theorem mainRun_sameSchema {ts ts' : TomlTables} (h : sameSchema ts ts')
    (ndall : ∀ p ∈ ts, nodupKeys p.2) :
    List.Perm (mainRun ts) (mainRun ts') := by
  obtain ⟨ts₀, hf, hp⟩ := h
  have hkeys0 : List.Perm (ts.map Prod.fst) (ts₀.map Prod.fst) :=
    (forall₂_sameTable_keys hf) ▸ List.Perm.refl _
  have ndall₀ : ∀ q ∈ ts₀, nodupKeys q.2 := forall₂_sameTable_nodup hf ndall
  have step1 : mainRun ts = mainRun ts₀ := by
    unfold mainRun
    apply forall₂_map_eq hf
    intro p q hR hp
    rw [hR.1, renderFile_TableFromToml_eq q.1 hkeys0 hR.2 (ndall p hp)]
  have hkeys1 : List.Perm (ts₀.map Prod.fst) (ts'.map Prod.fst) := hp.map _
  have step2 : List.Perm (mainRun ts₀) (mainRun ts') := by
    unfold mainRun
    have e : ∀ q ∈ ts₀,
        (genFilename q.1, renderFile (TableFromToml ts₀ q.1 q.2)) =
        (genFilename q.1, renderFile (TableFromToml ts' q.1 q.2)) := by
      intro q hq
      rw [renderFile_TableFromToml_eq q.1 hkeys1 (List.Perm.refl q.2) (ndall₀ q hq)]
    rw [List.map_congr_left e]
    exact hp.map _
  rw [step1]
  exact step2

/-- snakeLoop agrees with mapping the per-segment rule over the indexed
segment list and concatenating with no separator. -/
theorem snakeLoop_eq (exported : Bool) :
    ∀ (l : List String) (i : Nat),
      snakeLoop exported i l =
        String.join ((List.enumFrom i l).map (fun q =>
          if q.1 == 0 && !exported then q.2
          else if q.2 == "id" then "ID"
          else goTitle q.2))
  | [], _ => rfl
  | p :: ps, i => by
    rw [snakeLoop, List.enumFrom, List.map_cons, join_cons,
      snakeLoop_eq exported ps (i + 1)]

/-- mainLoop on a schema whose first render failure is at the given table
stops right there: the earlier files are generated, the run is marked
failed, and nothing after the failing table is processed. -/
theorem mainLoop_first_failure :
    ∀ (pre post : TomlTables) (name : String) (tt : TomlTable)
      (fails : String → Bool),
      (∀ p ∈ pre, fails p.1 = false) → fails name = true →
      mainLoop (pre ++ (name, tt) :: post) fails =
        (pre.map (fun p => genFilename p.1), true)
  | [], post, name, tt, fails, _, hfail => by
    simp [mainLoop, hfail]
  | q :: rest, post, name, tt, fails, hpre, hfail => by
    have hq : fails q.1 = false := hpre q (List.mem_cons_self _ _)
    have ih := mainLoop_first_failure rest post name tt fails
      (fun p hp => hpre p (List.mem_cons_of_mem _ hp)) hfail
    simp [mainLoop, hq, ih]

theorem mainLoop_all_ok : ∀ (ts : TomlTables), (mainLoop ts (fun _ => false)).2 = false
  | [] => rfl
  | _ :: rest => by simp [mainLoop, mainLoop_all_ok rest]

example : SnakeToGocase "contest_id" true = "ContestID" := by decide
example : SnakeToGocase "contest_id" false = "contestID" := by decide
example : SnakeToGocase "id" false = "id" := by decide
example : sortKeys [("b", "int"), ("a", "int")] = ["a", "b"] := by decide
example : JoinCondition [("b", "int"), ("a", "int")] " AND " = "a = ? AND b = ?" := by decide
example : JoinArguments [("user_id", "int")] "r" = "r.UserID" := by decide
example : Marks [("a", "x"), ("b", "y")] = "?, ?" := by decide
example : StructName "users" = some "User" := by decide
example : StructName "" = none := by decide
example : ForeignKey "user_id" = "User" := by decide
example :
    (TableFromToml [("users", [("id", "int")])] "users" [("id", "int")]).PrimaryKeys
      = [("id", "int")] := by decide
example :
    upsertStmt (TableFromToml [("users", [("name", "text"), ("id", "text")])]
        "users" [("name", "text"), ("id", "text")]) =
      "INSERT INTO users(id, name) VALUES (?, ?) ON CONFLICT (id) DO UPDATE SET id = ?, name = ?" := by
  decide
example : fkAccessorName "posts" "user_id" = "GetUserPosts" := by decide
example :
    mainLoop [("as", [("id", "int")]), ("bs", [("id", "int")])] (fun n => n == "as")
      = ([], true) := by decide

/-! ### Claim theorems -/

/-- C1: whenever the raw table has a column named exactly id of declared
type v, the derived primary keys are exactly the singleton id column
(no other column participates, whatever foreign-key-shaped names exist),
and the write strategy is the explicit insert-or-update one
(Upsert = false) exactly when v is the integer type int. -/
theorem C1_id_overrides_primary_keys (tables : TomlTables) (name : String)
    (t : TomlTable) (v : String) (h : List.lookup "id" t = some v) :
    (TableFromToml tables name t).PrimaryKeys = [("id", v)] ∧
    ((TableFromToml tables name t).Upsert = false ↔ v = "int") := by
  obtain ⟨h1, h2⟩ := TableFromToml_some tables name h
  refine ⟨h1, ?_⟩
  rw [h2]
  by_cases hv : v = "int"
  · subst hv; simp
  · simp [hv]

/-- C1 witness: the posts table carries both an integer id and a
foreign-key-shaped user_id, yet only id is a primary key and the
strategy is explicit insert-or-update. -/
theorem C1_witness :
    List.lookup "id" ([("id", "int"), ("user_id", "int")] : TomlTable) = some "int" ∧
    ((TableFromToml [("posts", [("id", "int"), ("user_id", "int")]),
          ("users", [("id", "int")])] "posts"
          [("id", "int"), ("user_id", "int")]).PrimaryKeys = [("id", "int")] ∧
      ((TableFromToml [("posts", [("id", "int"), ("user_id", "int")]),
          ("users", [("id", "int")])] "posts"
          [("id", "int"), ("user_id", "int")]).Upsert = false ↔ ("int" : String) = "int")) :=
  ⟨by decide, C1_id_overrides_primary_keys _ "posts" _ "int" (by decide)⟩

/-- C2: without an id column the primary keys equal the foreign keys, the
strategy is upsert, and a column belongs to this key set exactly when it
is a column of the table, its name ends in the suffix of underscore
followed by id, and stripping that suffix and appending s names a table
of the schema; any other column, foreign-key-shaped or not, stays a
plain column. -/
theorem C2_no_id_composite_keys (tables : TomlTables) (name : String)
    (t : TomlTable) (h : List.lookup "id" t = none) :
    (TableFromToml tables name t).PrimaryKeys = (TableFromToml tables name t).ForeignKeys ∧
    (TableFromToml tables name t).Upsert = true ∧
    ∀ p : String × String,
      p ∈ (TableFromToml tables name t).ForeignKeys ↔
        p ∈ t ∧ goHasSuffix p.1 "_id" = true ∧
          (List.lookup (dropRightStr p.1 3 ++ "s") tables).isSome = true := by
  obtain ⟨h1, h2⟩ := TableFromToml_none tables name h
  refine ⟨?_, h2, ?_⟩
  · rw [h1, TableFromToml_ForeignKeys]
  · intro p
    rw [TableFromToml_ForeignKeys, List.mem_filter]
    unfold fkCandidate
    simp [and_assoc]

/-- C2 witness: the enrollments join table has no id column, so both of
its relation columns form the composite key set. -/
theorem C2_witness :
    List.lookup "id" ([("user_id", "int"), ("course_id", "int")] : TomlTable) = none ∧
    ("user_id", "int") ∈ (TableFromToml
        [("enrollments", [("user_id", "int"), ("course_id", "int")]),
         ("users", [("id", "int")]), ("courses", [("id", "int")])]
        "enrollments" [("user_id", "int"), ("course_id", "int")]).ForeignKeys :=
  ⟨by decide,
   ((C2_no_id_composite_keys _ "enrollments" _ (by decide)).2.2
       ("user_id", "int")).mpr (by decide)⟩

/-- C3 counterexample: for a schema whose only table has neither an id
column nor any foreign-key-shaped column, the derived primary key set is
empty, yet the driver renders the file for that table and the run
finishes without any fatal error (exit status zero). -/
theorem C3_counterexample :
    (TableFromToml [("things", [("name", "text")])] "things"
        [("name", "text")]).PrimaryKeys = [] ∧
    (mainRun [("things", [("name", "text")])]).map Prod.fst =
      ["models/things_generated.go"] ∧
    mainLoop [("things", [("name", "text")])] (fun _ => false) =
      (["models/things_generated.go"], false) := by decide

/-- C3 amended: the generator performs no check at all on the derived
primary key set; it renders one file per table unconditionally, the run
succeeds when no template execution fails, and a table with empty
primary keys is rendered with empty WHERE clause text in its by-key
accessors. -/
theorem C3_no_empty_key_check :
    (∀ ts : TomlTables, (mainRun ts).map Prod.fst = ts.map (fun p => genFilename p.1)) ∧
    (∀ ts : TomlTables, (mainLoop ts (fun _ => false)).2 = false) ∧
    (∀ t : Table, t.PrimaryKeys = [] →
      deleteStmt t = "DELETE FROM " ++ t.Name ++ " WHERE ") := by
  refine ⟨fun ts => by simp [mainRun], mainLoop_all_ok, fun t h => ?_⟩
  unfold deleteStmt
  rw [h]
  rw [show JoinCondition [] " AND " = "" from rfl, String.append_empty]

/-- C3 witness: a concrete table with empty primary keys gets a Delete
statement whose WHERE clause is empty. -/
theorem C3_witness :
    (TableFromToml [("logs", [("message", "text")])] "logs"
        [("message", "text")]).PrimaryKeys = [] ∧
    deleteStmt (TableFromToml [("logs", [("message", "text")])] "logs"
        [("message", "text")]) = "DELETE FROM logs WHERE " :=
  ⟨by decide,
   (C3_no_empty_key_check.2.2 _ (by decide)).trans (by decide)⟩

/-- C4: the clause builders enumerate the column set in sorted key order
(a sorted permutation of the keys of the map, never the native iteration
order), so they are invariant under permutation of the map entries; per
table, rendering is byte-identical across any enumeration of the schema
and of the raw table; and a whole run over any two enumerations of the
same schema produces the same filename-content pairs. -/
theorem C4_deterministic_render :
    (∀ m : TomlTable, (sortKeys m).Sorted strLe ∧
      List.Perm (sortKeys m) (m.map Prod.fst)) ∧
    (∀ (m m' : TomlTable) (sep recv : String), List.Perm m m' →
      JoinCondition m sep = JoinCondition m' sep ∧
      JoinArguments m recv = JoinArguments m' recv ∧
      Marks m = Marks m') ∧
    (∀ (ts ts' : TomlTables) (name : String) (t t' : TomlTable),
      List.Perm (ts.map Prod.fst) (ts'.map Prod.fst) →
      List.Perm t t' → nodupKeys t →
      renderFile (TableFromToml ts name t) = renderFile (TableFromToml ts' name t')) ∧
    (∀ ts ts' : TomlTables, sameSchema ts ts' → (∀ p ∈ ts, nodupKeys p.2) →
      List.Perm (mainRun ts) (mainRun ts')) :=
  ⟨fun m => ⟨sortKeys_sorted m, sortKeys_perm m⟩,
   fun _ _ sep recv h =>
     ⟨JoinCondition_eq_of_perm h sep, JoinArguments_eq_of_perm h recv,
      Marks_eq_of_perm h⟩,
   fun _ _ name _ _ hts ht ndt => renderFile_TableFromToml_eq name hts ht ndt,
   fun _ _ h ndall => mainRun_sameSchema h ndall⟩

/-- C4 witness: two enumerations of the same two-table schema, differing
both in outer order and in the column order of the posts table, produce
the same set of generated files. -/
theorem C4_witness :
    List.Perm
      (mainRun [("posts", [("user_id", "int"), ("id", "int")]),
                ("users", [("id", "int")])])
      (mainRun [("users", [("id", "int")]),
                ("posts", [("id", "int"), ("user_id", "int")])]) :=
  C4_deterministic_render.2.2.2
    [("posts", [("user_id", "int"), ("id", "int")]), ("users", [("id", "int")])]
    [("users", [("id", "int")]), ("posts", [("id", "int"), ("user_id", "int")])]
    ⟨[("posts", [("id", "int"), ("user_id", "int")]), ("users", [("id", "int")])],
     List.Forall₂.cons ⟨rfl, by decide⟩
       (List.Forall₂.cons ⟨rfl, by decide⟩ List.Forall₂.nil),
     by decide⟩
    (by decide)

/-- C5 counterexample: for the users table with a text id the upsert SET
clause is id = ?, name = ?, which also lists the key column id, whereas
the clause over exactly the non-key columns would be name = ?. -/
theorem C5_counterexample :
    (TableFromToml [("users", [("name", "text"), ("id", "text")])] "users"
        [("name", "text"), ("id", "text")]).Upsert = true ∧
    upsertSetClause (TableFromToml [("users", [("name", "text"), ("id", "text")])]
        "users" [("name", "text"), ("id", "text")]) = "id = ?, name = ?" ∧
    JoinCondition (TableFromToml [("users", [("name", "text"), ("id", "text")])]
        "users" [("name", "text"), ("id", "text")]).FieldsWithoutID ", " = "name = ?" ∧
    ("id = ?, name = ?" : String) ≠ "name = ?" := by decide

/-- C5 amended: for every table rendered with the upsert template the
emitted statement is the single INSERT into all columns, with one
placeholder per column, ON CONFLICT over the primary keys, DO UPDATE SET
over one equality per column of the FULL field set (key columns
included), and the argument list carries the full column set twice. -/
theorem C5_upsert_full_field_set (t : Table) (h : t.Upsert = true) :
    writeFunc t = upsertFunc t ∧
    upsertStmt t =
      "INSERT INTO " ++ t.Name ++ "(" ++ JoinArguments t.Fields "-" ++
        ") VALUES (" ++ Marks t.Fields ++ ") ON CONFLICT (" ++
        JoinArguments t.PrimaryKeys "-" ++ ") DO UPDATE SET " ++
        upsertSetClause t ∧
    upsertSetClause t =
      (match sortKeys t.Fields with
       | [] => ""
       | k :: ks => k ++ " = ?" ++ String.join (ks.map (fun k2 => ", " ++ (k2 ++ " = ?")))) ∧
    Marks t.Fields = String.intercalate ", " (List.replicate t.Fields.length "?") ∧
    upsertArgs t = JoinArguments t.Fields "r" ++ ", " ++ JoinArguments t.Fields "r" := by
  refine ⟨by simp [writeFunc, h], rfl, ?_, Marks_eq_replicate _, rfl⟩
  unfold upsertSetClause
  rw [JoinCondition_eq_join]

/-- C5 witness: the users table with a text id uses the upsert write
template. -/
theorem C5_witness :
    (TableFromToml [("users", [("id", "text")])] "users"
        [("id", "text")]).Upsert = true ∧
    writeFunc (TableFromToml [("users", [("id", "text")])] "users" [("id", "text")]) =
      upsertFunc (TableFromToml [("users", [("id", "text")])] "users" [("id", "text")]) :=
  ⟨by decide, (C5_upsert_full_field_set _ (by decide)).1⟩

/-- C6 counterexample: with two tables where only the first one in
iteration order fails to render, the run aborts at once: the second
table file is never generated, contradicting continue-and-report. -/
theorem C6_counterexample :
    mainLoop [("as", [("id", "int")]), ("bs", [("id", "int")])]
      (fun n => n == "as") = ([], true) ∧
    "models/bs_generated.go" ∉
      (mainLoop [("as", [("id", "int")]), ("bs", [("id", "int")])]
        (fun n => n == "as")).1 := by decide

/-- C6 amended: when rendering one table fails, main reports the error
through log.Fatal, which exits the process with a non-zero status at
once: files of tables processed earlier exist, and neither the failing
table nor any later table is generated; generation does not continue. -/
theorem C6_render_failure_aborts_run (pre post : TomlTables) (name : String)
    (tt : TomlTable) (fails : String → Bool)
    (hpre : ∀ p ∈ pre, fails p.1 = false) (hfail : fails name = true) :
    mainLoop (pre ++ (name, tt) :: post) fails =
      (pre.map (fun p => genFilename p.1), true) :=
  mainLoop_first_failure pre post name tt fails hpre hfail

/-- C6 witness: the second of two tables fails, the first file exists and
the run exits non-zero. -/
theorem C6_witness :
    mainLoop [("as", [("id", "int")]), ("bs", [("id", "int")])]
      (fun n => n == "bs") = (["models/as_generated.go"], true) :=
  (C6_render_failure_aborts_run [("as", [("id", "int")])] [] "bs"
    [("id", "int")] (fun n => n == "bs") (by decide) (by decide)).trans
    (by decide)

/-- C7 counterexample: the foreign key accessor emitted for user_id on
posts is named GetUserPosts (Get, relation, struct, pluralizing s), not
GetByUserPosts as the claim states. -/
theorem C7_counterexample :
    fkAccessorName "posts" "user_id" = "GetUserPosts" ∧
    fkAccessorName "posts" "user_id" ≠ "GetByUserPosts" := by decide

/-- C7 amended: for the posts-users scenario schema, posts derives
primary key id, foreign key user_id and the explicit insert-or-update
strategy, and the emitted accessor is GetUserPosts taking the storage
context and a userID parameter and returning a list of Post records;
generally each accessor is named Get, then relation, then struct name,
then s. -/
theorem C7_fk_accessor_naming :
    (TableFromToml [("posts", [("id", "int"), ("user_id", "int"), ("body", "text")]),
        ("users", [("id", "int")])] "posts"
        [("id", "int"), ("user_id", "int"), ("body", "text")]).PrimaryKeys
      = [("id", "int")] ∧
    (TableFromToml [("posts", [("id", "int"), ("user_id", "int"), ("body", "text")]),
        ("users", [("id", "int")])] "posts"
        [("id", "int"), ("user_id", "int"), ("body", "text")]).ForeignKeys
      = [("user_id", "int")] ∧
    (TableFromToml [("posts", [("id", "int"), ("user_id", "int"), ("body", "text")]),
        ("users", [("id", "int")])] "posts"
        [("id", "int"), ("user_id", "int"), ("body", "text")]).Upsert = false ∧
    fkAccessorName "posts" "user_id" = "GetUserPosts" ∧
    SnakeToGocase "user_id" false = "userID" ∧
    getByFKFunc (TableFromToml [("posts", [("id", "int"), ("user_id", "int"), ("body", "text")]),
        ("users", [("id", "int")])] "posts"
        [("id", "int"), ("user_id", "int"), ("body", "text")]) "user_id" "int" =
      "// GetUserPosts gets a list of Post belonging to a User.\nfunc GetUserPosts(db db.DBContext, userID int) ([]*Post, error) \x7b\n    var result []*Post\n    if err := db.Select(&result, \"SELECT * FROM posts WHERE user_id = ?\", userID); err != nil \x7b\n        return nil, errors.WithStack(err)\n    \x7d\n    return result, nil\n\x7d\n" := by
  set_option maxRecDepth 8192 in decide

/-- C8 counterexample: applied to the bare identifier id with exported
false, the transform keeps it as id, so a first segment equal to id is
NOT rendered ID when exported is false. -/
theorem C8_counterexample :
    SnakeToGocase "id" false = "id" ∧
    SnakeToGocase "id" false ≠ "ID" ∧
    SnakeToGocase "id_name" false = "idName" := by decide

/-- C8 amended: the transform concatenates, with no separator, the
segments of the underscore split, where the first segment with exported
false is kept as-is even when it equals id, and every other segment (and
the first one when exported is true) renders as ID when it equals id and
title-cased otherwise. -/
theorem C8_id_segment_rule :
    (∀ (s : String) (exported : Bool),
      SnakeToGocase s exported =
        String.join ((List.enum (goSplitUnderscore s)).map (fun q =>
          if q.1 == 0 && !exported then q.2
          else if q.2 == "id" then "ID"
          else goTitle q.2))) ∧
    SnakeToGocase "contest_id" true = "ContestID" ∧
    SnakeToGocase "contest_id" false = "contestID" ∧
    SnakeToGocase "id_contest" true = "IDContest" ∧
    SnakeToGocase "id_contest" false = "idContest" ∧
    SnakeToGocase "a_id_b" false = "aIDB" ∧
    SnakeToGocase "name" true = "Name" :=
  ⟨fun s exported => snakeLoop_eq exported (goSplitUnderscore s) 0,
   by decide, by decide, by decide, by decide, by decide, by decide⟩

/-- C9: every clause builder returns the empty string on the empty column
set, and consequently the by-key SELECT of a table with empty primary
keys carries empty WHERE clause text instead of failing. -/
theorem C9_empty_builders :
    (∀ sep : String, JoinCondition [] sep = "") ∧
    Marks [] = "" ∧
    (∀ recv : String, JoinArguments [] recv = "") ∧
    (∀ t : Table, t.PrimaryKeys = [] →
      selectByPKStmt t = "SELECT * FROM " ++ t.Name ++ " WHERE ") := by
  refine ⟨fun sep => rfl, rfl, fun recv => rfl, fun t h => ?_⟩
  unfold selectByPKStmt
  rw [h]
  rw [show JoinCondition [] " AND " = "" from rfl, String.append_empty]

/-- C9 witness: a concrete table with empty primary keys renders its
by-key SELECT with empty WHERE text. -/
theorem C9_witness :
    (TableFromToml [("tags", [("label", "text")])] "tags"
        [("label", "text")]).PrimaryKeys = [] ∧
    selectByPKStmt (TableFromToml [("tags", [("label", "text")])] "tags"
        [("label", "text")]) = "SELECT * FROM tags WHERE " :=
  ⟨by decide,
   (C9_empty_builders.2.2.2 _ (by decide)).trans (by decide)⟩

/-- C10: StructName is none exactly on the empty table name, where the Go
slice would be out of range, and on every nonempty name it strips the
last character and exports the remainder, agreeing with the total
structStr used by the renderer. -/
theorem C10_structName_domain :
    StructName "" = none ∧
    ∀ s : String, 0 < s.length → StructName s = some (structStr s) := by
  refine ⟨by decide, fun s hs => ?_⟩
  unfold StructName goSlice structStr
  have h1 : (1 : Int) ≤ (s.length : Int) := by exact_mod_cast hs
  rw [if_pos ⟨by omega, by omega⟩]
  have h2 : ((s.length : Int) - 1).toNat = s.length - 1 := by omega
  rw [h2]
  rfl

/-- C10 witness: the table name users yields the struct name User. -/
theorem C10_witness :
    0 < "users".length ∧ StructName "users" = some "User" :=
  ⟨by decide, (C10_structName_domain.2 "users" (by decide)).trans (by decide)⟩

end Kjudge
